import Mathlib

/-!
Shallow embedding of the route-observation and reconciliation engine of
wireguard-windows (files tunnel/mtumonitor.go and tunnel/proxy.go):
best-default-route selection, MTU adaptation, and the bypass-route
reconciliation pass, together with the startup/teardown wiring.

Machine integers (uint32 metrics and MTU values) are modelled as Nat with
explicit reduction modulo 2^32 at the operations where Go wraps.  OS
interactions (forwarding-table reads, interface lookups, route add/delete,
callback registration) are modelled as explicit environments recording the
outcome the OS would report, and each pass additionally returns the list of
route-table calls it issued and the list of log events it emitted.
-/

/-- Address kind of a netip.Addr value: the zero Addr is invalid, and an
address is IPv4, IPv6, or an IPv4-mapped-in-IPv6 address. -/
inductive AddrKind
  | invalid
  | v4
  | v6
  | v4in6
deriving DecidableEq, Repr

/-- Model of netip.Addr: a kind together with the numeric address value. -/
structure Addr where
  kind : AddrKind
  val : Nat
deriving DecidableEq, Repr

/-- netip.Addr.Is4: true exactly for plain IPv4 addresses. -/
def Addr.Is4 (a : Addr) : Bool :=
  a.kind == AddrKind.v4

/-- netip.Addr.Is6: true for IPv6 addresses, including IPv4-mapped ones. -/
def Addr.Is6 (a : Addr) : Bool :=
  a.kind == AddrKind.v6 || a.kind == AddrKind.v4in6

/-- netip.Addr.BitLen: 0 for the invalid address, 32 for IPv4, 128 for IPv6. -/
def Addr.BitLen (a : Addr) : Nat :=
  match a.kind with
  | AddrKind.invalid => 0
  | AddrKind.v4 => 32
  | AddrKind.v6 => 128
  | AddrKind.v4in6 => 128

/-- The zero value of netip.Addr (invalid address). -/
def Addr.zero : Addr :=
  ⟨AddrKind.invalid, 0⟩

/-- Model of netip.Prefix as used here: an address plus a bit count.  The
code only builds prefixes via netip.PrefixFrom(addr, addr.BitLen()). -/
structure Pfx where
  addr : Addr
  bits : Nat
deriving DecidableEq, Repr

/-- netip.PrefixFrom at the uses occurring in the code. -/
def PrefixFrom (a : Addr) (b : Nat) : Pfx :=
  ⟨a, b⟩

/-- windows.AF_INET. -/
def AF_INET : Nat := 2

/-- windows.AF_INET6. -/
def AF_INET6 : Nat := 23

/-- winipcfg.IfOperStatusUp. -/
def IfOperStatusUp : Nat := 1

/-- winipcfg.MibParameterNotification (first enum constant). -/
def MibParameterNotification : Nat := 0

/-- The fields of winipcfg.MibIfRow2 read by this code: operational status
and the physical MTU of the interface. -/
structure MibIfRow2 where
  OperStatus : Nat
  MTU : Nat
deriving DecidableEq, Repr

/-- The fields of winipcfg.MibIPInterfaceRow read or written by this code:
the per-family interface metric and the per-family MTU (NlMtu). -/
structure MibIPInterfaceRow where
  Metric : Nat
  NLMTU : Nat
deriving DecidableEq, Repr

/-- The fields of winipcfg.MibIPforwardRow2 read by this code. -/
structure MibIPforwardRow2 where
  DestinationPrefixLength : Nat
  InterfaceLUID : Nat
  InterfaceIndex : Nat
  NextHop : Addr
  Metric : Nat
deriving DecidableEq, Repr

/-- Point-in-time view of the OS state consumed during one pass: whether
GetIPForwardTable2 succeeds and with which rows, the per-LUID result of
LUID.Interface(), the per-LUID per-family result of LUID.IPInterface(), and
whether MibIPInterfaceRow.Set() succeeds. -/
structure Snapshot where
  tableOk : Bool
  rows : List MibIPforwardRow2
  ifaceOf : Nat → Option MibIfRow2
  ipifaceOf : Nat → Nat → Option MibIPInterfaceRow
  setOk : Bool

/-- iterateForeignDefaultRoutes (tunnel/mtumonitor.go): the table rows that
reach the callback, in table order: zero destination prefix length, an
interface other than the tunnel itself, a readable interface row, and
operational status up.  Both callers pass callbacks that never return an
error, so the iteration is modelled as this filtered list. -/
def foreignDefaultRoutes (s : Snapshot) (ourLUID : Nat) : List MibIPforwardRow2 :=
  s.rows.filter fun r =>
    r.DestinationPrefixLength == 0 && !(r.InterfaceLUID == ourLUID) &&
      (match s.ifaceOf r.InterfaceLUID with
       | none => false
       | some ifrow => ifrow.OperStatus == IfOperStatusUp)

/-- One step of the findDefaultLUID accumulation (tunnel/mtumonitor.go):
the accumulator is (lowestMetric, index, luid); a row whose per-family
interface row is unreadable is skipped; otherwise the uint32 sum of route
metric and interface metric is compared strictly against the current
lowest. -/
def selStep (family : Nat) (s : Snapshot) (acc : Nat × Nat × Nat)
    (r : MibIPforwardRow2) : Nat × Nat × Nat :=
  match s.ipifaceOf r.InterfaceLUID family with
  | none => acc
  | some ipif =>
      if (r.Metric + ipif.Metric) % 4294967296 < acc.1 then
        ((r.Metric + ipif.Metric) % 4294967296, r.InterfaceIndex, r.InterfaceLUID)
      else acc

/-- findDefaultLUID (tunnel/mtumonitor.go), restricted to its selection
result: starting from lowestMetric = 2^32 - 1, index 0 and LUID 0, fold the
selection step over the foreign default routes and return the selected
(LUID, interface index).  The early return when the selection is unchanged
keeps the same values, so the stored state always equals this pair. -/
def selectResult (family ourLUID : Nat) (s : Snapshot) : Nat × Nat :=
  let acc := (foreignDefaultRoutes s ourLUID).foldl (selStep family s) (4294967295, 0, 0)
  (acc.2.2, acc.2.1)

/-- The per-family protocol minimum MTU chosen in monitorMTU. -/
def minMTUof (family : Nat) : Nat :=
  if family == AF_INET then 576
  else if family == AF_INET6 then 1280
  else 0

/-- The NlMtu value written by monitorMTU for a physical MTU value: the
uint32 difference mtu - 80, raised to the family minimum when below it. -/
def appliedNLMTU (family : Nat) (mtu : Nat) : Nat :=
  if (mtu + 4294967296 - 80) % 4294967296 < minMTUof family then minMTUof family
  else (mtu + 4294967296 - 80) % 4294967296

/-- The mutable state of monitorMTU: the last selected LUID and interface
index, and the physical MTU recorded at the last successful write. -/
structure MtuState where
  lastLUID : Nat
  lastIndex : Nat
  lastMTU : Nat
deriving DecidableEq, Repr

/-- The failure points of one monitorMTU pass. -/
inductive MtuErr
  | tableErr
  | ifaceErr
  | ipifaceErr
  | setErr
deriving DecidableEq, Repr

/-- The tail of the monitorMTU pass starting at the mtu > 0 check: when the
physical MTU is positive and differs from the recorded one, read the tunnel
interface row, store the derived NlMtu and write it; the recorded physical
MTU is updated only after a successful write.  Returns the pass error, the
state after the step, and the NlMtu value written, when one was. -/
def mtuApply (family ourLUID : Nat) (s : Snapshot) (st1 : MtuState) (mtu : Nat) :
    Option MtuErr × MtuState × Option Nat :=
  if 0 < mtu ∧ st1.lastMTU ≠ mtu then
    match s.ipifaceOf ourLUID family with
    | none => (some MtuErr.ipifaceErr, st1, none)
    | some _ =>
        if s.setOk then
          (none, ⟨st1.lastLUID, st1.lastIndex, mtu⟩, some (appliedNLMTU family mtu))
        else (some MtuErr.setErr, st1, none)
  else (none, st1, none)

/-- The monitorMTU pass after the default-route selection: the selection is
stored, then the physical MTU of the selected interface is read (zero when
no interface is selected or its MTU field is zero) and handed to the apply
step. -/
def mtuAfterSelect (family ourLUID : Nat) (s : Snapshot) (st : MtuState)
    (sel : Nat × Nat) : Option MtuErr × MtuState × Option Nat :=
  if sel.1 = 0 then mtuApply family ourLUID s ⟨sel.1, sel.2, st.lastMTU⟩ 0
  else
    match s.ifaceOf sel.1 with
    | none => (some MtuErr.ifaceErr, ⟨sel.1, sel.2, st.lastMTU⟩, none)
    | some ifrow =>
        mtuApply family ourLUID s ⟨sel.1, sel.2, st.lastMTU⟩
          (if 0 < ifrow.MTU then ifrow.MTU else 0)

/-- doIt of monitorMTU (tunnel/mtumonitor.go): one MTU reconciliation pass
over a snapshot.  A forwarding-table read failure aborts before any state
change. -/
def mtuDoIt (family ourLUID : Nat) (s : Snapshot) (st : MtuState) :
    Option MtuErr × MtuState × Option Nat :=
  if s.tableOk = false then (some MtuErr.tableErr, st, none)
  else mtuAfterSelect family ourLUID s st (selectResult family ourLUID s)

/-- The initial synchronous pass of monitorMTU, from the initial state
lastLUID = 0, lastIndex = 2^32 - 1, lastMTU = 0: its error is returned to
the caller of monitorMTU. -/
def mtuMonitorStart (family ourLUID : Nat) (s : Snapshot) : Except MtuErr MtuState :=
  match mtuDoIt family ourLUID s ⟨0, 4294967295, 0⟩ with
  | (some e, _, _) => Except.error e
  | (none, st, _) => Except.ok st

/-- The route-change callback registered by monitorMTU: it re-runs the pass
when the notified route is present with a zero destination prefix length,
keeps only the resulting state, and discards the pass error. -/
def mtuOnRouteChange (family ourLUID : Nat) (routePresent : Bool) (destLen : Nat)
    (s : Snapshot) (st : MtuState) : MtuState :=
  if routePresent && destLen == 0 then (mtuDoIt family ourLUID s st).2.1 else st

/-- The interface-change callback registered by monitorMTU: it re-runs the
pass on a parameter notification, keeps only the resulting state, and
discards the pass error. -/
def mtuOnIfaceChange (family ourLUID : Nat) (ntype : Nat)
    (s : Snapshot) (st : MtuState) : MtuState :=
  if ntype == MibParameterNotification then (mtuDoIt family ourLUID s st).2.1 else st

/-- One proxy as seen by monitorProxyRoutes (tunnel/proxy.go): an identity
plus the resolved destination addresses of its peer.  The listen address
and the relay client play no role in the route reconciliation. -/
structure ProxyP where
  id : Nat
  Addresses : List Addr
deriving DecidableEq, Repr

/-- The family filter applied while building destProxy in
monitorProxyRoutes: an address is skipped when the family is AF_INET and it
is not IPv4, or the family is AF_INET6 and it is not IPv6. -/
def keepAddr (family : Nat) (a : Addr) : Bool :=
  if family == AF_INET && !a.Is4 then false
  else if family == AF_INET6 && !a.Is6 then false
  else true

/-- Insertion into a Go map modelled as a duplicate-free list of keys in
insertion order. -/
def insertKey {α : Type} [DecidableEq α] (l : List α) (k : α) : List α :=
  if k ∈ l then l else l ++ [k]

/-- The key set of the destProxy map of monitorProxyRoutes: the
full-bit-length host prefixes over every family-matching resolved address
of every proxy, deduplicated.  The values of the map feed only the disabled
restart-signaling block and are not modelled. -/
def destKeys (family : Nat) (proxies : List ProxyP) : List Pfx :=
  proxies.foldl
    (fun acc p =>
      p.Addresses.foldl
        (fun acc2 a =>
          if keepAddr family a then insertKey acc2 (PrefixFrom a a.BitLen)
          else acc2)
        acc)
    []

/-- luidRouteData of monitorProxyRoutes: the identity of one installed
bypass route. -/
structure RouteKey where
  luid : Nat
  destination : Pfx
  nextHop : Addr
deriving DecidableEq, Repr

/-- Outcome reported by LUID.AddRoute for one attempted route. -/
inductive AddResult
  | ok
  | alreadyExists
  | otherError
deriving DecidableEq, Repr

/-- Outcome reported by LUID.DeleteRoute for one attempted route. -/
inductive DelResult
  | ok
  | notFound
  | otherError
deriving DecidableEq, Repr

/-- The outcomes the OS reports to route add and delete calls during one
pass, keyed by interface LUID, destination and next hop. -/
structure RouteEnv where
  addResult : Nat → Pfx → Addr → AddResult
  delResult : Nat → Pfx → Addr → DelResult

/-- One route-table call issued to the OS. -/
inductive RouteCall
  | add (luid : Nat) (destination : Pfx) (nextHop : Addr)
  | del (luid : Nat) (destination : Pfx) (nextHop : Addr)
deriving DecidableEq, Repr

/-- One log line emitted by the bypass-route code. -/
inductive LogEvent
  | addFailed (luid : Nat) (destination : Pfx) (nextHop : Addr)
  | delFailed (luid : Nat) (destination : Pfx) (nextHop : Addr)
deriving DecidableEq, Repr

/-- The newRoutes set built by doIt of monitorProxyRoutes: for every
foreign default route and every destination, the route key is recorded when
AddRoute reports success or ERROR_OBJECT_ALREADY_EXISTS, and skipped on any
other failure. -/
def addPhase (env : RouteEnv) (dests : List Pfx) (rows : List MibIPforwardRow2) :
    List RouteKey :=
  rows.foldl
    (fun acc r =>
      dests.foldl
        (fun acc2 d =>
          match env.addResult r.InterfaceLUID d r.NextHop with
          | AddResult.otherError => acc2
          | _ => insertKey acc2 ⟨r.InterfaceLUID, d, r.NextHop⟩)
        acc)
    []

/-- The AddRoute calls issued by doIt: one per foreign default route and
destination, unconditionally. -/
def addCallsOf (dests : List Pfx) (rows : List MibIPforwardRow2) : List RouteCall :=
  rows.flatMap fun r => dests.map fun d => RouteCall.add r.InterfaceLUID d r.NextHop

/-- The log lines emitted by the add loop of doIt: one per AddRoute call
that fails for a reason other than ERROR_OBJECT_ALREADY_EXISTS. -/
def addLogsOf (env : RouteEnv) (dests : List Pfx) (rows : List MibIPforwardRow2) :
    List LogEvent :=
  rows.flatMap fun r =>
    dests.filterMap fun d =>
      match env.addResult r.InterfaceLUID d r.NextHop with
      | AddResult.otherError => some (LogEvent.addFailed r.InterfaceLUID d r.NextHop)
      | _ => none

/-- The DeleteRoute calls issued by the stale loop of doIt: one per tracked
route absent from newRoutes. -/
def staleCallsOf (ourRoutes newRoutes : List RouteKey) : List RouteCall :=
  ourRoutes.filterMap fun k =>
    if k ∈ newRoutes then none
    else some (RouteCall.del k.luid k.destination k.nextHop)

/-- The log lines emitted by the stale loop of doIt: one per DeleteRoute
call that fails for a reason other than ERROR_NOT_FOUND. -/
def staleLogsOf (env : RouteEnv) (ourRoutes newRoutes : List RouteKey) :
    List LogEvent :=
  ourRoutes.filterMap fun k =>
    if k ∈ newRoutes then none
    else
      match env.delResult k.luid k.destination k.nextHop with
      | DelResult.otherError => some (LogEvent.delFailed k.luid k.destination k.nextHop)
      | _ => none

/-- The failure point of one bypass-route pass: only the forwarding-table
read can fail it. -/
inductive PassErr
  | tableErr
deriving DecidableEq, Repr

/-- doIt of monitorProxyRoutes (tunnel/proxy.go): one bypass-route
reconciliation pass.  Returns the pass error, the new tracked set
(ourRoutes), the route-table calls issued, and the log lines emitted.  On a
table read failure the tracked set is unchanged and nothing was issued.
The proxiesToRestart bookkeeping feeds only the disabled restart-signaling
block and is not modelled. -/
def proxyDoIt (_family ourLUID : Nat) (dests : List Pfx) (s : Snapshot)
    (env : RouteEnv) (ourRoutes : List RouteKey) :
    Option PassErr × List RouteKey × List RouteCall × List LogEvent :=
  if s.tableOk = false then (some PassErr.tableErr, ourRoutes, [], [])
  else
    (none, addPhase env dests (foreignDefaultRoutes s ourLUID),
      addCallsOf dests (foreignDefaultRoutes s ourLUID) ++
        staleCallsOf ourRoutes (addPhase env dests (foreignDefaultRoutes s ourLUID)),
      addLogsOf env dests (foreignDefaultRoutes s ourLUID) ++
        staleLogsOf env ourRoutes (addPhase env dests (foreignDefaultRoutes s ourLUID)))

/-- The DeleteRoute calls issued by cleanIt of monitorProxyRoutes: one per
tracked route. -/
def cleanItCalls (ourRoutes : List RouteKey) : List RouteCall :=
  ourRoutes.map fun k => RouteCall.del k.luid k.destination k.nextHop

/-- The log lines emitted by cleanIt: one per DeleteRoute call that fails
for a reason other than ERROR_NOT_FOUND. -/
def cleanItLogs (env : RouteEnv) (ourRoutes : List RouteKey) : List LogEvent :=
  ourRoutes.filterMap fun k =>
    match env.delResult k.luid k.destination k.nextHop with
    | DelResult.otherError => some (LogEvent.delFailed k.luid k.destination k.nextHop)
    | _ => none

/-- cleanIt of monitorProxyRoutes: every tracked route is deleted
best-effort and the tracked set is reset to empty. -/
def cleanIt (env : RouteEnv) (ourRoutes : List RouteKey) :
    List RouteKey × List RouteCall × List LogEvent :=
  ([], cleanItCalls ourRoutes, cleanItLogs env ourRoutes)

/-- Whether each of the two change-callback registrations of
monitorProxyRoutes succeeds. -/
structure RegEnv where
  regRouteOk : Bool
  regIfaceOk : Bool
deriving DecidableEq, Repr

/-- The failure points of monitorProxyRoutes startup. -/
inductive StartErr
  | passErr
  | regRouteErr
  | regIfaceErr
deriving DecidableEq, Repr

/-- Externally visible events of monitorProxyRoutes startup, in order. -/
inductive StartEvent
  | call (c : RouteCall)
  | regRoute
  | regIface
  | unregRoute
deriving DecidableEq, Repr

/-- monitorProxyRoutes startup (tunnel/proxy.go): run the initial pass from
an empty tracked set (its failure is returned with nothing registered),
then register the route-change callback (on failure run cleanIt and
return), then register the interface-change callback (on failure
unregister the first callback, run cleanIt and return).  Returns the
startup error, the tracked set left behind, and the ordered event trace. -/
def monitorProxyRoutesStart (family ourLUID : Nat) (proxies : List ProxyP)
    (s : Snapshot) (env : RouteEnv) (reg : RegEnv) :
    Option StartErr × List RouteKey × List StartEvent :=
  match proxyDoIt family ourLUID (destKeys family proxies) s env [] with
  | (some _, st, calls, _) => (some StartErr.passErr, st, calls.map StartEvent.call)
  | (none, st, calls, _) =>
      if reg.regRouteOk = false then
        (some StartErr.regRouteErr, (cleanIt env st).1,
          calls.map StartEvent.call ++ (cleanItCalls st).map StartEvent.call)
      else if reg.regIfaceOk = false then
        (some StartErr.regIfaceErr, (cleanIt env st).1,
          calls.map StartEvent.call ++ [StartEvent.regRoute, StartEvent.unregRoute] ++
            (cleanItCalls st).map StartEvent.call)
      else (none, st, calls.map StartEvent.call ++ [StartEvent.regRoute, StartEvent.regIface])

/-- The route-change callback registered by monitorProxyRoutes: it re-runs
the pass when the notified route is present with a zero destination prefix
length, keeps the resulting tracked set and log lines, and discards the
pass error. -/
def proxyOnRouteChange (family ourLUID : Nat) (dests : List Pfx)
    (routePresent : Bool) (destLen : Nat) (s : Snapshot) (env : RouteEnv)
    (st : List RouteKey) : List RouteKey × List LogEvent :=
  if routePresent && destLen == 0 then
    ((proxyDoIt family ourLUID dests s env st).2.1,
      (proxyDoIt family ourLUID dests s env st).2.2.2)
  else (st, [])

/-- One peer as seen by the address-list variant of spawnProxies
(second file variant): whether its ProxyEndpoint is non-empty, whether URL
parsing and host resolution succeed, the per-IP parse outcomes, and whether
the spawned relay reports ready rather than a startup failure. -/
structure Peer where
  hasProxy : Bool
  urlOk : Bool
  lookupOk : Bool
  resolvedIPs : List (Option Addr)
  spawnOk : Bool

/-- The per-IP netip.ParseAddr loop of spawnProxies: any parse failure
fails the whole function. -/
def parseAll : List (Option Addr) → Option (List Addr)
  | [] => some []
  | none :: _ => none
  | some a :: rest => (parseAll rest).map (fun l => a :: l)

/-- The peer loop of the address-list variant of spawnProxies, accumulating
the map m of distinct resolved addresses (modelled as a duplicate-free list
in insertion order).  Returns none on any URL parse, resolution, address
parse, or relay startup failure. -/
def spawnGo : List Peer → List Addr → Option (List Addr)
  | [], m => some m
  | p :: rest, m =>
      if p.hasProxy then
        if p.urlOk = false then none
        else if p.lookupOk = false then none
        else
          match parseAll p.resolvedIPs with
          | none => none
          | some addrs =>
              if p.spawnOk then spawnGo rest (addrs.foldl insertKey m) else none
      else spawnGo rest m

/-- The address-list variant of spawnProxies (second file variant): after
the peer loop, the result slice is allocated with make of length equal to
the number of distinct addresses, and the addresses are then appended after
those zero elements. -/
def spawnProxies (peers : List Peer) : Option (List Addr) :=
  (spawnGo peers []).map fun m => List.replicate m.length Addr.zero ++ m

/-- The candidate rows of the default-route selection: the foreign up
default routes whose per-family interface row is readable. -/
def candRows (family ourLUID : Nat) (s : Snapshot) : List MibIPforwardRow2 :=
  (foreignDefaultRoutes s ourLUID).filter fun r =>
    (s.ipifaceOf r.InterfaceLUID family).isSome

/-- The uint32 combined metric of a candidate row. -/
def candKey (family : Nat) (s : Snapshot) (r : MibIPforwardRow2) : Nat :=
  match s.ipifaceOf r.InterfaceLUID family with
  | some ipif => (r.Metric + ipif.Metric) % 4294967296
  | none => 0

/-- Modelled from the spec selection contract: scan the candidates left to
right keeping the first-encountered strict minimizer of the key, starting
from no selection; a candidate is ever selected only when its key is
strictly below 2^32 - 1. -/
def specSelectGo (key : MibIPforwardRow2 → Nat) (best : Option MibIPforwardRow2) :
    List MibIPforwardRow2 → Option MibIPforwardRow2
  | [] => best
  | r :: l =>
      specSelectGo key
        (match best with
         | none => if key r < 4294967295 then some r else none
         | some b => if key r < key b then some r else some b)
        l

/-- Modelled from the spec selection contract: the first-encountered
candidate with minimal key, none when every candidate has key 2^32 - 1 or
there is no candidate. -/
def specSelect (key : MibIPforwardRow2 → Nat) (l : List MibIPforwardRow2) :
    Option MibIPforwardRow2 :=
  specSelectGo key none l

theorem mem_insertKey {α : Type} [DecidableEq α] (l : List α) (k x : α) :
    x ∈ insertKey l k ↔ x ∈ l ∨ x = k := by
  by_cases h : k ∈ l
  · simp only [insertKey, if_pos h]
    constructor
    · exact Or.inl
    · rintro (hx | rfl)
      · exact hx
      · exact h
  · simp [insertKey, if_neg h]

theorem mem_addPhase_inner (env : RouteEnv) (L : Nat) (nh : Addr) (dests : List Pfx)
    (acc : List RouteKey) (x : RouteKey) :
    (x ∈ dests.foldl
        (fun acc2 d =>
          match env.addResult L d nh with
          | AddResult.otherError => acc2
          | _ => insertKey acc2 ⟨L, d, nh⟩)
        acc) ↔
      x ∈ acc ∨ ∃ d ∈ dests, env.addResult L d nh ≠ AddResult.otherError ∧
        x = ⟨L, d, nh⟩ := by
  induction dests generalizing acc with
  | nil => simp
  | cons d rest ih =>
      simp only [List.foldl_cons]
      cases hres : env.addResult L d nh with
      | otherError => simp [hres, ih]
      | ok =>
          simp [hres, ih, mem_insertKey]
          tauto
      | alreadyExists =>
          simp [hres, ih, mem_insertKey]
          tauto

theorem mem_addPhase (env : RouteEnv) (dests : List Pfx)
    (rows : List MibIPforwardRow2) (x : RouteKey) :
    x ∈ addPhase env dests rows ↔
      ∃ r ∈ rows, ∃ d ∈ dests,
        env.addResult r.InterfaceLUID d r.NextHop ≠ AddResult.otherError ∧
          x = ⟨r.InterfaceLUID, d, r.NextHop⟩ := by
  have aux : ∀ (rs : List MibIPforwardRow2) (acc : List RouteKey),
      (x ∈ rs.foldl
          (fun acc r =>
            dests.foldl
              (fun acc2 d =>
                match env.addResult r.InterfaceLUID d r.NextHop with
                | AddResult.otherError => acc2
                | _ => insertKey acc2 ⟨r.InterfaceLUID, d, r.NextHop⟩)
              acc)
          acc) ↔
        x ∈ acc ∨ ∃ r ∈ rs, ∃ d ∈ dests,
          env.addResult r.InterfaceLUID d r.NextHop ≠ AddResult.otherError ∧
            x = ⟨r.InterfaceLUID, d, r.NextHop⟩ := by
    intro rs
    induction rs with
    | nil => simp
    | cons r rest ih =>
        intro acc
        simp only [List.foldl_cons, ih, mem_addPhase_inner]
        simp only [List.mem_cons]
        constructor
        · rintro ((hx | ⟨d, hd, hres, rfl⟩) | ⟨r2, hr2, d, hd, hres, rfl⟩)
          · exact Or.inl hx
          · exact Or.inr ⟨r, Or.inl rfl, d, hd, hres, rfl⟩
          · exact Or.inr ⟨r2, Or.inr hr2, d, hd, hres, rfl⟩
        · rintro (hx | ⟨r2, (rfl | hr2), d, hd, hres, rfl⟩)
          · exact Or.inl (Or.inl hx)
          · exact Or.inl (Or.inr ⟨d, hd, hres, rfl⟩)
          · exact Or.inr ⟨r2, hr2, d, hd, hres, rfl⟩
  simpa using aux rows []

theorem mem_destKeys_inner (family : Nat) (addrs : List Addr) (acc : List Pfx)
    (x : Pfx) :
    (x ∈ addrs.foldl
        (fun acc2 a =>
          if keepAddr family a then insertKey acc2 (PrefixFrom a a.BitLen)
          else acc2)
        acc) ↔
      x ∈ acc ∨ ∃ a ∈ addrs, keepAddr family a = true ∧ x = PrefixFrom a a.BitLen := by
  induction addrs generalizing acc with
  | nil => simp
  | cons a rest ih =>
      simp only [List.foldl_cons]
      by_cases hk : keepAddr family a
      · simp [hk, ih, mem_insertKey]
        tauto
      · simp [hk, ih]

theorem mem_destKeys (family : Nat) (proxies : List ProxyP) (x : Pfx) :
    x ∈ destKeys family proxies ↔
      ∃ p ∈ proxies, ∃ a ∈ p.Addresses, keepAddr family a = true ∧
        x = PrefixFrom a a.BitLen := by
  have aux : ∀ (ps : List ProxyP) (acc : List Pfx),
      (x ∈ ps.foldl
          (fun acc p =>
            p.Addresses.foldl
              (fun acc2 a =>
                if keepAddr family a then insertKey acc2 (PrefixFrom a a.BitLen)
                else acc2)
              acc)
          acc) ↔
        x ∈ acc ∨ ∃ p ∈ ps, ∃ a ∈ p.Addresses, keepAddr family a = true ∧
          x = PrefixFrom a a.BitLen := by
    intro ps
    induction ps with
    | nil => simp
    | cons p rest ih =>
        intro acc
        simp only [List.foldl_cons, ih, mem_destKeys_inner]
        simp only [List.mem_cons]
        constructor
        · rintro ((hx | ⟨a, ha, hka, rfl⟩) | ⟨p2, hp2, a, ha, hka, rfl⟩)
          · exact Or.inl hx
          · exact Or.inr ⟨p, Or.inl rfl, a, ha, hka, rfl⟩
          · exact Or.inr ⟨p2, Or.inr hp2, a, ha, hka, rfl⟩
        · rintro (hx | ⟨p2, (rfl | hp2), a, ha, hka, rfl⟩)
          · exact Or.inl (Or.inl hx)
          · exact Or.inl (Or.inr ⟨a, ha, hka, rfl⟩)
          · exact Or.inr ⟨p2, hp2, a, ha, hka, rfl⟩
  simpa using aux proxies []

theorem addPhase_inner_of_no_error (env : RouteEnv) (L : Nat) (nh : Addr)
    (dests : List Pfx) (acc : List RouteKey)
    (h : ∀ d ∈ dests, env.addResult L d nh ≠ AddResult.otherError) :
    dests.foldl
        (fun acc2 d =>
          match env.addResult L d nh with
          | AddResult.otherError => acc2
          | _ => insertKey acc2 ⟨L, d, nh⟩)
        acc =
      dests.foldl (fun acc2 d => insertKey acc2 ⟨L, d, nh⟩) acc := by
  induction dests generalizing acc with
  | nil => rfl
  | cons d rest ih =>
      have hd := h d (List.mem_cons_self d rest)
      cases hres : env.addResult L d nh with
      | otherError => exact absurd hres hd
      | ok =>
          simp only [List.foldl_cons, hres]
          exact ih _ fun d2 hd2 => h d2 (List.mem_cons_of_mem d hd2)
      | alreadyExists =>
          simp only [List.foldl_cons, hres]
          exact ih _ fun d2 hd2 => h d2 (List.mem_cons_of_mem d hd2)

theorem addPhase_of_no_error (env : RouteEnv) (dests : List Pfx)
    (rows : List MibIPforwardRow2)
    (h : ∀ r ∈ rows, ∀ d ∈ dests,
      env.addResult r.InterfaceLUID d r.NextHop ≠ AddResult.otherError) :
    addPhase env dests rows =
      rows.foldl
        (fun acc r => dests.foldl (fun acc2 d => insertKey acc2 ⟨r.InterfaceLUID, d, r.NextHop⟩) acc)
        [] := by
  have aux : ∀ (rs : List MibIPforwardRow2) (acc : List RouteKey),
      (∀ r ∈ rs, ∀ d ∈ dests,
        env.addResult r.InterfaceLUID d r.NextHop ≠ AddResult.otherError) →
      rs.foldl
          (fun acc r =>
            dests.foldl
              (fun acc2 d =>
                match env.addResult r.InterfaceLUID d r.NextHop with
                | AddResult.otherError => acc2
                | _ => insertKey acc2 ⟨r.InterfaceLUID, d, r.NextHop⟩)
              acc)
          acc =
        rs.foldl
          (fun acc r => dests.foldl (fun acc2 d => insertKey acc2 ⟨r.InterfaceLUID, d, r.NextHop⟩) acc)
          acc := by
    intro rs
    induction rs with
    | nil => intro acc _; rfl
    | cons r rest ih =>
        intro acc hall
        simp only [List.foldl_cons]
        rw [addPhase_inner_of_no_error env _ _ _ _
          (hall r (List.mem_cons_self r rest))]
        exact ih _ fun r2 hr2 => hall r2 (List.mem_cons_of_mem r hr2)
  exact aux rows [] h

theorem staleCallsOf_eq_nil (ourRoutes newRoutes : List RouteKey)
    (h : ∀ k ∈ ourRoutes, k ∈ newRoutes) : staleCallsOf ourRoutes newRoutes = [] := by
  rw [staleCallsOf, List.filterMap_eq_nil_iff]
  intro k hk
  simp [h k hk]

theorem mem_staleLogsOf (env : RouteEnv) (ourRoutes newRoutes : List RouteKey)
    (e : LogEvent) :
    e ∈ staleLogsOf env ourRoutes newRoutes ↔
      ∃ k ∈ ourRoutes, k ∉ newRoutes ∧
        env.delResult k.luid k.destination k.nextHop = DelResult.otherError ∧
        e = LogEvent.delFailed k.luid k.destination k.nextHop := by
  rw [staleLogsOf, List.mem_filterMap]
  constructor
  · rintro ⟨k, hk, hsome⟩
    by_cases hmem : k ∈ newRoutes
    · simp [hmem] at hsome
    · refine ⟨k, hk, hmem, ?_⟩
      cases hres : env.delResult k.luid k.destination k.nextHop <;>
        (simp [hmem, hres] at hsome; try simp [hsome])
  · rintro ⟨k, hk, hmem, hres, rfl⟩
    exact ⟨k, hk, by simp [hmem, hres]⟩

theorem mem_addLogsOf (env : RouteEnv) (dests : List Pfx)
    (rows : List MibIPforwardRow2) (e : LogEvent) :
    e ∈ addLogsOf env dests rows ↔
      ∃ r ∈ rows, ∃ d ∈ dests,
        env.addResult r.InterfaceLUID d r.NextHop = AddResult.otherError ∧
        e = LogEvent.addFailed r.InterfaceLUID d r.NextHop := by
  rw [addLogsOf, List.mem_flatMap]
  constructor
  · rintro ⟨r, hr, hmem⟩
    rw [List.mem_filterMap] at hmem
    obtain ⟨d, hd, hsome⟩ := hmem
    refine ⟨r, hr, d, hd, ?_⟩
    cases hres : env.addResult r.InterfaceLUID d r.NextHop <;>
      (simp [hres] at hsome; try simp [hsome])
  · rintro ⟨r, hr, d, hd, hres, rfl⟩
    exact ⟨r, hr, List.mem_filterMap.mpr ⟨d, hd, by simp [hres]⟩⟩

/-- Abstraction of the selection accumulator from the current best
candidate: no candidate corresponds to the initial sentinel accumulator. -/
def bestAbs (key : MibIPforwardRow2 → Nat) :
    Option MibIPforwardRow2 → Nat × Nat × Nat
  | none => (4294967295, 0, 0)
  | some b => (key b, b.InterfaceIndex, b.InterfaceLUID)

theorem selStep_cand (family : Nat) (s : Snapshot) (acc : Nat × Nat × Nat)
    (r : MibIPforwardRow2) (h : (s.ipifaceOf r.InterfaceLUID family).isSome) :
    selStep family s acc r =
      if candKey family s r < acc.1 then
        (candKey family s r, r.InterfaceIndex, r.InterfaceLUID)
      else acc := by
  rcases hip : s.ipifaceOf r.InterfaceLUID family with _ | ipif
  · rw [hip] at h; simp at h
  · simp [selStep, candKey, hip]

theorem selStep_noncand (family : Nat) (s : Snapshot) (acc : Nat × Nat × Nat)
    (r : MibIPforwardRow2) (h : (s.ipifaceOf r.InterfaceLUID family).isSome = false) :
    selStep family s acc r = acc := by
  rcases hip : s.ipifaceOf r.InterfaceLUID family with _ | ipif
  · simp [selStep, hip]
  · rw [hip] at h; simp at h

theorem foldl_selStep_filter (family : Nat) (s : Snapshot)
    (rows : List MibIPforwardRow2) (acc : Nat × Nat × Nat) :
    rows.foldl (selStep family s) acc =
      (rows.filter fun r => (s.ipifaceOf r.InterfaceLUID family).isSome).foldl
        (selStep family s) acc := by
  induction rows generalizing acc with
  | nil => rfl
  | cons r rest ih =>
      by_cases h : (s.ipifaceOf r.InterfaceLUID family).isSome
      · simp only [List.foldl_cons, List.filter_cons, h, if_true]
        exact ih _
      · have hb : (s.ipifaceOf r.InterfaceLUID family).isSome = false := by
          simpa using h
        simp only [List.foldl_cons, List.filter_cons, hb,
          selStep_noncand family s acc r hb]
        simp only [Bool.false_eq_true, if_false]
        exact ih acc

theorem foldl_selStep_go (family : Nat) (s : Snapshot)
    (l : List MibIPforwardRow2) (best : Option MibIPforwardRow2)
    (h : ∀ r ∈ l, (s.ipifaceOf r.InterfaceLUID family).isSome) :
    l.foldl (selStep family s) (bestAbs (candKey family s) best) =
      bestAbs (candKey family s) (specSelectGo (candKey family s) best l) := by
  induction l generalizing best with
  | nil => rfl
  | cons r rest ih =>
      have hr := h r (List.mem_cons_self r rest)
      have hrest : ∀ r2 ∈ rest, (s.ipifaceOf r2.InterfaceLUID family).isSome :=
        fun r2 hr2 => h r2 (List.mem_cons_of_mem r hr2)
      simp only [List.foldl_cons, specSelectGo]
      rw [selStep_cand family s _ r hr]
      cases best with
      | none =>
          by_cases hcmp : candKey family s r < 4294967295
          · simp only [bestAbs, if_pos hcmp]
            exact ih (some r) hrest
          · simp only [bestAbs, if_neg hcmp]
            exact ih none hrest
      | some b =>
          by_cases hcmp : candKey family s r < candKey family s b
          · simp only [bestAbs, if_pos hcmp]
            exact ih (some r) hrest
          · simp only [bestAbs, if_neg hcmp]
            exact ih (some b) hrest

/-- Gateway address used by the concrete examples. -/
def gwAddr : Addr := ⟨AddrKind.v4, 258⟩

/-- A default-route row whose uint32 combined metric is the sentinel
2^32 - 1. -/
def cexRow7 : MibIPforwardRow2 := ⟨0, 7, 4, gwAddr, 4294967295⟩

/-- A snapshot with exactly one qualifying default-route candidate, whose
combined metric equals the uint32 sentinel. -/
def cexSnap7 : Snapshot where
  tableOk := true
  rows := [cexRow7]
  ifaceOf := fun l => if l == 7 then some ⟨IfOperStatusUp, 1500⟩ else none
  ipifaceOf := fun l f => if l == 7 && f == AF_INET then some ⟨0, 1500⟩ else none
  setOk := true

/-- C7 counterexample: in cexSnap7 there is exactly one qualifying
candidate (zero-length destination, foreign, up, readable per-family
properties), on interface LUID 7, so the claim requires the selector to
return it; but its uint32 combined metric 2^32 - 1 never beats the
sentinel lowestMetric, and the code selects none (LUID 0). -/
theorem C7_counterexample :
    candRows AF_INET 1 cexSnap7 = [cexRow7] ∧ cexRow7.InterfaceLUID = 7 ∧
      selectResult AF_INET 1 cexSnap7 = (0, 0) := by
  decide

/-- C7 (amended): the selector returns the first-encountered candidate
minimizing the uint32 (modulo 2^32) combined metric, except that a
candidate whose combined metric equals the sentinel 2^32 - 1 is never
selected; when no candidate is selected the result is LUID 0, index 0.
Candidates are the zero-destination-length rows on a foreign, operationally
up interface with readable per-family interface properties, in snapshot
order, and ties keep the first-encountered candidate. -/
theorem C7_selector_first_modular_argmin (family ourLUID : Nat) (s : Snapshot) :
    selectResult family ourLUID s =
      match specSelect (candKey family s) (candRows family ourLUID s) with
      | none => (0, 0)
      | some b => (b.InterfaceLUID, b.InterfaceIndex) := by
  have hmem : ∀ r ∈ candRows family ourLUID s,
      (s.ipifaceOf r.InterfaceLUID family).isSome = true := fun r hr =>
    (List.mem_filter.mp hr).2
  have hgo := foldl_selStep_go family s (candRows family ourLUID s) none hmem
  simp only [selectResult,
    foldl_selStep_filter family s (foreignDefaultRoutes s ourLUID) (4294967295, 0, 0)]
  rw [show ((foreignDefaultRoutes s ourLUID).filter fun r =>
      (s.ipifaceOf r.InterfaceLUID family).isSome) = candRows family ourLUID s from rfl]
  have hinit : (bestAbs (candKey family s) none) = ((4294967295 : Nat), (0 : Nat), (0 : Nat)) := rfl
  rw [← hinit, hgo, specSelect]
  rcases specSelectGo (candKey family s) none (candRows family ourLUID s) with _ | b
  · rfl
  · rfl

/-- A snapshot whose tunnel interface row is present and writable, used to
exercise the MTU apply step in isolation. -/
def cexSnapSet : Snapshot where
  tableOk := true
  rows := []
  ifaceOf := fun _ => none
  ipifaceOf := fun l f => if l == 1 && f == AF_INET then some ⟨0, 1500⟩ else none
  setOk := true

/-- C4 counterexample: for physical MTU 50 (positive and below 80) on
IPv4, the uint32 subtraction wraps, the floor test fails, and the value
actually applied is 4294967266, not max(50 - 80, 576) = 576 as the claim
states. -/
theorem C4_counterexample :
    (mtuApply AF_INET 1 cexSnapSet ⟨5, 3, 0⟩ 50).2.2 = some 4294967266 ∧
      appliedNLMTU AF_INET 50 ≠ max (50 - 80) 576 := by
  decide

/-- C4 (amended): for a physical MTU p with 80 <= p < 2^32 the applied
tunnel MTU is max(p - 80, 576) on IPv4 and max(p - 80, 1280) on IPv6 (so
500 yields 576 and 1400 yields 1320); but for 0 < p < 80 the uint32
subtraction wraps and the applied value is p + 2^32 - 80, with no
flooring. -/
theorem C4_applied_mtu_value (p : Nat) (h0 : 0 < p) (hlt : p < 4294967296) :
    (80 ≤ p → appliedNLMTU AF_INET p = max (p - 80) 576 ∧
      appliedNLMTU AF_INET6 p = max (p - 80) 1280) ∧
    (p < 80 → appliedNLMTU AF_INET p = p + 4294967296 - 80 ∧
      appliedNLMTU AF_INET6 p = p + 4294967296 - 80) := by
  constructor
  · intro h80
    have hmod : (p + 4294967296 - 80) % 4294967296 = p - 80 := by
      have heq : p + 4294967296 - 80 = (p - 80) + 4294967296 := by omega
      rw [heq, Nat.add_mod_right]
      exact Nat.mod_eq_of_lt (by omega)
    constructor
    · simp only [appliedNLMTU, minMTUof, AF_INET, AF_INET6, hmod]
      norm_num [Nat.max_def]
      split_ifs <;> omega
    · simp only [appliedNLMTU, minMTUof, AF_INET, AF_INET6, hmod]
      norm_num [Nat.max_def]
      split_ifs <;> omega
  · intro h80
    have hmod : (p + 4294967296 - 80) % 4294967296 = p + 4294967296 - 80 :=
      Nat.mod_eq_of_lt (by omega)
    constructor
    · simp only [appliedNLMTU, minMTUof, AF_INET, AF_INET6, hmod]
      norm_num
      omega
    · simp only [appliedNLMTU, minMTUof, AF_INET, AF_INET6, hmod]
      norm_num
      omega

/-- Witness for C4 at the concrete physical MTU values named by the spec:
500 on IPv4 applies 576 and 1400 on IPv6 applies 1320. -/
theorem C4_applied_mtu_value_witness :
    appliedNLMTU AF_INET 500 = 576 ∧ appliedNLMTU AF_INET6 1400 = 1320 := by
  have h1 := (C4_applied_mtu_value 500 (by decide) (by decide)).1 (by decide)
  have h2 := (C4_applied_mtu_value 1400 (by decide) (by decide)).1 (by decide)
  constructor
  · rw [h1.1]
    decide
  · rw [h2.2]
    decide

/-- A foreign default route on interface LUID 5 with combined metric 2. -/
def cexRowM : MibIPforwardRow2 := ⟨0, 5, 3, gwAddr, 1⟩

/-- First MTU snapshot: the selected uplink has physical MTU 500. -/
def cexSnapA : Snapshot where
  tableOk := true
  rows := [cexRowM]
  ifaceOf := fun l => if l == 5 then some ⟨IfOperStatusUp, 500⟩ else none
  ipifaceOf := fun l f =>
    if l == 5 && f == AF_INET then some ⟨1, 1500⟩
    else if l == 1 && f == AF_INET then some ⟨0, 1500⟩ else none
  setOk := true

/-- Second MTU snapshot: identical but the uplink physical MTU is now
576. -/
def cexSnapB : Snapshot :=
  { cexSnapA with ifaceOf := fun l => if l == 5 then some ⟨IfOperStatusUp, 576⟩ else none }

/-- C3 counterexample: the first pass (physical MTU 500, IPv4) writes the
floored tunnel MTU 576; in the second pass the physical MTU is 576 and the
derived tunnel MTU is again 576, equal to the value last written, so the
claim says no write happens; but the code compares the physical MTU 576
against the recorded physical MTU 500 and writes 576 again. -/
theorem C3_counterexample :
    (mtuDoIt AF_INET 1 cexSnapA ⟨0, 4294967295, 0⟩).2.2 = some 576 ∧
    (mtuDoIt AF_INET 1 cexSnapB
      (mtuDoIt AF_INET 1 cexSnapA ⟨0, 4294967295, 0⟩).2.1).2.2 = some 576 ∧
    appliedNLMTU AF_INET 576 = 576 := by
  decide

/-- C3 (amended): in a pass where a default route is selected, its
interface row is readable with positive physical MTU, and the tunnel
interface row is readable and writable, the per-family tunnel MTU is
written if and only if the physical MTU of the selected interface differs
from the physical MTU recorded at the last write (lastMTU) — not the
derived value — and the value written is the derived NlMtu of that
physical MTU. -/
theorem C3_write_iff_physical_changed (family ourLUID : Nat) (s : Snapshot)
    (st : MtuState) (L I : Nat) (ifrow : MibIfRow2) (ipif : MibIPInterfaceRow)
    (htable : s.tableOk = true)
    (hsel : selectResult family ourLUID s = (L, I))
    (hL : L ≠ 0)
    (hif : s.ifaceOf L = some ifrow)
    (hmtu : 0 < ifrow.MTU)
    (hip : s.ipifaceOf ourLUID family = some ipif)
    (hset : s.setOk = true) :
    ((mtuDoIt family ourLUID s st).2.2 ≠ none ↔ ifrow.MTU ≠ st.lastMTU) ∧
    (∀ v, (mtuDoIt family ourLUID s st).2.2 = some v →
      v = appliedNLMTU family ifrow.MTU) := by
  have hd : mtuDoIt family ourLUID s st =
      mtuApply family ourLUID s ⟨L, I, st.lastMTU⟩ ifrow.MTU := by
    simp [mtuDoIt, mtuAfterSelect, htable, hsel, hL, hif, hmtu]
  rw [hd]
  by_cases hc : st.lastMTU = ifrow.MTU
  · simp [mtuApply, hc]
  · have hc2 : ifrow.MTU ≠ st.lastMTU := fun h => hc h.symm
    simp [mtuApply, hmtu, hip, hset, hc2, fun h => hc (h : st.lastMTU = ifrow.MTU)]

/-- Witness for C3 on cexSnapA from the fresh state: the selected uplink
has physical MTU 500, the recorded physical MTU is 0, and a write occurs. -/
theorem C3_write_iff_physical_changed_witness :
    ((mtuDoIt AF_INET 1 cexSnapA ⟨0, 4294967295, 0⟩).2.2 ≠ none ↔ (500 : Nat) ≠ 0) :=
  (C3_write_iff_physical_changed AF_INET 1 cexSnapA ⟨0, 4294967295, 0⟩ 5 3
    ⟨1, 500⟩ ⟨0, 1500⟩ (by decide) (by decide) (by decide) (by decide)
    (by decide) (by decide) (by decide)).1

/-- A resolved IPv4 proxy destination address. -/
def pAddr4 : Addr := ⟨AddrKind.v4, 16909060⟩

/-- A proxy whose peer resolved to a single IPv4 address. -/
def sampleProxy : ProxyP := ⟨0, [pAddr4]⟩

/-- Route environment in which every add and delete succeeds. -/
def envAllOk : RouteEnv :=
  ⟨fun _ _ _ => AddResult.ok, fun _ _ _ => DelResult.ok⟩

/-- Route environment in which every add reports already-exists, as the OS
does when the identical route is already installed. -/
def envAllExists : RouteEnv :=
  ⟨fun _ _ _ => AddResult.alreadyExists, fun _ _ _ => DelResult.ok⟩

/-- A snapshot with a single up foreign default route on interface LUID
5. -/
def cexSnapP : Snapshot where
  tableOk := true
  rows := [cexRowM]
  ifaceOf := fun l => if l == 5 then some ⟨IfOperStatusUp, 1500⟩ else none
  ipifaceOf := fun _ _ => none
  setOk := true

/-- C1: after a reconciliation pass over snapshot s in which every route
add succeeds or reports already-exists, the tracked installed-route set
equals exactly the keys pairing every up foreign default-route entry of s
with the host prefix of every family-matching resolved proxy destination
address, with the next hop of that entry. -/
theorem C1_pass_converges (family ourLUID : Nat) (proxies : List ProxyP)
    (s : Snapshot) (env : RouteEnv) (st0 : List RouteKey)
    (htable : s.tableOk = true)
    (hadd : ∀ r ∈ foreignDefaultRoutes s ourLUID, ∀ d ∈ destKeys family proxies,
      env.addResult r.InterfaceLUID d r.NextHop ≠ AddResult.otherError) :
    ∀ k, k ∈ (proxyDoIt family ourLUID (destKeys family proxies) s env st0).2.1 ↔
      ∃ r ∈ foreignDefaultRoutes s ourLUID, ∃ p ∈ proxies, ∃ a ∈ p.Addresses,
        keepAddr family a = true ∧
        k = ⟨r.InterfaceLUID, PrefixFrom a a.BitLen, r.NextHop⟩ := by
  intro k
  have hp : (proxyDoIt family ourLUID (destKeys family proxies) s env st0).2.1 =
      addPhase env (destKeys family proxies) (foreignDefaultRoutes s ourLUID) := by
    simp [proxyDoIt, htable]
  rw [hp, mem_addPhase]
  constructor
  · rintro ⟨r, hr, d, hd, hres, rfl⟩
    obtain ⟨p, hp2, a, ha, hka, rfl⟩ := (mem_destKeys family proxies d).mp hd
    exact ⟨r, hr, p, hp2, a, ha, hka, rfl⟩
  · rintro ⟨r, hr, p, hp2, a, ha, hka, rfl⟩
    have hd : PrefixFrom a a.BitLen ∈ destKeys family proxies :=
      (mem_destKeys family proxies _).mpr ⟨p, hp2, a, ha, hka, rfl⟩
    exact ⟨r, hr, _, hd, hadd r hr _ hd, rfl⟩

/-- Witness for C1 on a one-route, one-address instance: the expected
bypass route key is tracked after the pass. -/
theorem C1_pass_converges_witness :
    (⟨5, PrefixFrom pAddr4 pAddr4.BitLen, gwAddr⟩ : RouteKey) ∈
      (proxyDoIt AF_INET 1 (destKeys AF_INET [sampleProxy]) cexSnapP envAllOk []).2.1 :=
  (C1_pass_converges AF_INET 1 [sampleProxy] cexSnapP envAllOk [] (by decide)
    (by decide) ⟨5, PrefixFrom pAddr4 pAddr4.BitLen, gwAddr⟩).mpr (by decide)

/-- C2 counterexample: with one up foreign default route and one proxy
destination, the first pass succeeds with every add reporting success;
the immediately following pass over the unchanged snapshot, with the OS now
reporting already-exists, still issues one AddRoute call to the OS,
refuting that zero add calls reach the OS on the second run. -/
theorem C2_counterexample :
    (proxyDoIt AF_INET 1 (destKeys AF_INET [sampleProxy]) cexSnapP envAllOk []).1 = none ∧
    (proxyDoIt AF_INET 1 (destKeys AF_INET [sampleProxy]) cexSnapP envAllExists
        (proxyDoIt AF_INET 1 (destKeys AF_INET [sampleProxy]) cexSnapP envAllOk []).2.1).2.2.1 =
      [RouteCall.add 5 (PrefixFrom pAddr4 pAddr4.BitLen) gwAddr] := by
  decide

/-- C2 (amended): re-running the pass with unchanged topology and proxy
set, when the OS answers already-exists to every (re-issued) add, reports
no error, leaves the tracked set unchanged, issues exactly the same add
calls as any pass over this snapshot and no delete call, so the OS route
table is not modified by the second run. -/
theorem C2_second_pass_idempotent (family ourLUID : Nat) (proxies : List ProxyP)
    (s : Snapshot) (env1 env2 : RouteEnv) (st0 : List RouteKey)
    (htable : s.tableOk = true)
    (h1 : ∀ r ∈ foreignDefaultRoutes s ourLUID, ∀ d ∈ destKeys family proxies,
      env1.addResult r.InterfaceLUID d r.NextHop ≠ AddResult.otherError)
    (h2 : ∀ r ∈ foreignDefaultRoutes s ourLUID, ∀ d ∈ destKeys family proxies,
      env2.addResult r.InterfaceLUID d r.NextHop = AddResult.alreadyExists) :
    (proxyDoIt family ourLUID (destKeys family proxies) s env2
        (proxyDoIt family ourLUID (destKeys family proxies) s env1 st0).2.1).1 = none ∧
    (proxyDoIt family ourLUID (destKeys family proxies) s env2
        (proxyDoIt family ourLUID (destKeys family proxies) s env1 st0).2.1).2.1 =
      (proxyDoIt family ourLUID (destKeys family proxies) s env1 st0).2.1 ∧
    (proxyDoIt family ourLUID (destKeys family proxies) s env2
        (proxyDoIt family ourLUID (destKeys family proxies) s env1 st0).2.1).2.2.1 =
      addCallsOf (destKeys family proxies) (foreignDefaultRoutes s ourLUID) ∧
    ∀ L d nh, RouteCall.del L d nh ∉
      (proxyDoIt family ourLUID (destKeys family proxies) s env2
        (proxyDoIt family ourLUID (destKeys family proxies) s env1 st0).2.1).2.2.1 := by
  have h2x : ∀ r ∈ foreignDefaultRoutes s ourLUID, ∀ d ∈ destKeys family proxies,
      env2.addResult r.InterfaceLUID d r.NextHop ≠ AddResult.otherError := by
    intro r hr d hd
    rw [h2 r hr d hd]
    intro hx
    cases hx
  have heq : addPhase env2 (destKeys family proxies) (foreignDefaultRoutes s ourLUID) =
      addPhase env1 (destKeys family proxies) (foreignDefaultRoutes s ourLUID) := by
    rw [addPhase_of_no_error env2 _ _ h2x, addPhase_of_no_error env1 _ _ h1]
  have hst1 : (proxyDoIt family ourLUID (destKeys family proxies) s env1 st0).2.1 =
      addPhase env1 (destKeys family proxies) (foreignDefaultRoutes s ourLUID) := by
    simp [proxyDoIt, htable]
  have hstale : staleCallsOf
      (addPhase env1 (destKeys family proxies) (foreignDefaultRoutes s ourLUID))
      (addPhase env2 (destKeys family proxies) (foreignDefaultRoutes s ourLUID)) = [] := by
    rw [heq]
    exact staleCallsOf_eq_nil _ _ fun k hk => hk
  refine ⟨?_, ?_, ?_, ?_⟩
  · simp [proxyDoIt, htable]
  · simp [proxyDoIt, htable, heq, hst1]
  · simp [proxyDoIt, htable, hst1, hstale]
  · intro L d nh
    simp [proxyDoIt, htable, hst1, hstale, addCallsOf, List.mem_flatMap, List.mem_map]

/-- Witness for C2 (amended) on the one-route, one-address instance: the
second pass keeps the tracked set of the first. -/
theorem C2_second_pass_idempotent_witness :
    (proxyDoIt AF_INET 1 (destKeys AF_INET [sampleProxy]) cexSnapP envAllExists
        (proxyDoIt AF_INET 1 (destKeys AF_INET [sampleProxy]) cexSnapP envAllOk []).2.1).2.1 =
      (proxyDoIt AF_INET 1 (destKeys AF_INET [sampleProxy]) cexSnapP envAllOk []).2.1 :=
  (C2_second_pass_idempotent AF_INET 1 [sampleProxy] cexSnapP envAllOk envAllExists []
    (by decide) (by decide) (by decide)).2.1

/-- C6: per-route failures never abort a pass.  With a readable table the
pass reports no error; the tracked set after the pass is exactly the add
phase result, independent of every delete outcome; a key all of whose add
attempts failed for a reason other than already-exists is excluded from
the new set; already-exists on add counts as success and the key is
tracked; not-found on delete is treated as success and emits no log line;
any other delete failure is logged while the stale key is dropped from
tracking anyway. -/
theorem C6_per_route_errors_not_fatal (family ourLUID : Nat) (dests : List Pfx)
    (s : Snapshot) (env : RouteEnv) (st : List RouteKey)
    (htable : s.tableOk = true) :
    (proxyDoIt family ourLUID dests s env st).1 = none ∧
    (proxyDoIt family ourLUID dests s env st).2.1 =
      addPhase env dests (foreignDefaultRoutes s ourLUID) ∧
    (∀ k : RouteKey,
      (∀ r ∈ foreignDefaultRoutes s ourLUID, ∀ d ∈ dests,
        k = ⟨r.InterfaceLUID, d, r.NextHop⟩ →
        env.addResult r.InterfaceLUID d r.NextHop = AddResult.otherError) →
      k ∉ (proxyDoIt family ourLUID dests s env st).2.1) ∧
    (∀ r ∈ foreignDefaultRoutes s ourLUID, ∀ d ∈ dests,
      env.addResult r.InterfaceLUID d r.NextHop = AddResult.alreadyExists →
      (⟨r.InterfaceLUID, d, r.NextHop⟩ : RouteKey) ∈
        (proxyDoIt family ourLUID dests s env st).2.1) ∧
    (∀ k ∈ st, env.delResult k.luid k.destination k.nextHop = DelResult.notFound →
      LogEvent.delFailed k.luid k.destination k.nextHop ∉
        (proxyDoIt family ourLUID dests s env st).2.2.2) ∧
    (∀ k ∈ st, k ∉ addPhase env dests (foreignDefaultRoutes s ourLUID) →
      env.delResult k.luid k.destination k.nextHop = DelResult.otherError →
      LogEvent.delFailed k.luid k.destination k.nextHop ∈
        (proxyDoIt family ourLUID dests s env st).2.2.2 ∧
      k ∉ (proxyDoIt family ourLUID dests s env st).2.1) := by
  have hp : proxyDoIt family ourLUID dests s env st =
      (none, addPhase env dests (foreignDefaultRoutes s ourLUID),
        addCallsOf dests (foreignDefaultRoutes s ourLUID) ++
          staleCallsOf st (addPhase env dests (foreignDefaultRoutes s ourLUID)),
        addLogsOf env dests (foreignDefaultRoutes s ourLUID) ++
          staleLogsOf env st (addPhase env dests (foreignDefaultRoutes s ourLUID))) := by
    simp [proxyDoIt, htable]
  rw [hp]
  refine ⟨rfl, rfl, ?_, ?_, ?_, ?_⟩
  · intro k hall hk
    obtain ⟨r, hr, d, hd, hres, rfl⟩ := (mem_addPhase env dests _ k).mp hk
    exact hres (hall r hr d hd rfl)
  · intro r hr d hd hres
    exact (mem_addPhase env dests _ _).mpr ⟨r, hr, d, hd, (by rw [hres]; simp), rfl⟩
  · intro k hk hres hmem
    rcases List.mem_append.mp hmem with hmem1 | hmem2
    · obtain ⟨r, _, d, _, _, heq⟩ := (mem_addLogsOf env dests _ _).mp hmem1
      cases heq
    · obtain ⟨k2, _, _, hres2, heq⟩ := (mem_staleLogsOf env st _ _).mp hmem2
      obtain ⟨h1, h2, h3⟩ := LogEvent.delFailed.inj heq
      rw [← h1, ← h2, ← h3] at hres2
      rw [hres] at hres2
      cases hres2
  · intro k hk hnot hres
    refine ⟨List.mem_append.mpr (Or.inr ?_), ?_⟩
    · exact (mem_staleLogsOf env st _ _).mpr ⟨k, hk, hnot, hres, rfl⟩
    · exact hnot

/-- Witness for C6 on the one-route, one-address instance with a stale
tracked key whose delete reports not-found. -/
theorem C6_per_route_errors_not_fatal_witness :
    (proxyDoIt AF_INET 1 (destKeys AF_INET [sampleProxy]) cexSnapP envAllOk
      [⟨9, PrefixFrom pAddr4 pAddr4.BitLen, gwAddr⟩]).1 = none :=
  (C6_per_route_errors_not_fatal AF_INET 1 (destKeys AF_INET [sampleProxy]) cexSnapP
    envAllOk [⟨9, PrefixFrom pAddr4 pAddr4.BitLen, gwAddr⟩] (by decide)).1

/-- C5: when the route-change registration succeeds and the
interface-change registration fails, monitorProxyRoutes unregisters the
first callback, issues a delete for every tracked bypass route, clears the
tracked set, and returns the error. -/
theorem C5_partial_registration_rollback (family ourLUID : Nat)
    (proxies : List ProxyP) (s : Snapshot) (env : RouteEnv) (reg : RegEnv)
    (htable : s.tableOk = true)
    (h1 : reg.regRouteOk = true) (h2 : reg.regIfaceOk = false) :
    (monitorProxyRoutesStart family ourLUID proxies s env reg).1 =
      some StartErr.regIfaceErr ∧
    (monitorProxyRoutesStart family ourLUID proxies s env reg).2.1 = [] ∧
    StartEvent.unregRoute ∈ (monitorProxyRoutesStart family ourLUID proxies s env reg).2.2 ∧
    ∀ k ∈ (proxyDoIt family ourLUID (destKeys family proxies) s env []).2.1,
      StartEvent.call (RouteCall.del k.luid k.destination k.nextHop) ∈
        (monitorProxyRoutesStart family ourLUID proxies s env reg).2.2 := by
  have hdo : proxyDoIt family ourLUID (destKeys family proxies) s env [] =
      (none, addPhase env (destKeys family proxies) (foreignDefaultRoutes s ourLUID),
        addCallsOf (destKeys family proxies) (foreignDefaultRoutes s ourLUID) ++
          staleCallsOf [] (addPhase env (destKeys family proxies) (foreignDefaultRoutes s ourLUID)),
        addLogsOf env (destKeys family proxies) (foreignDefaultRoutes s ourLUID) ++
          staleLogsOf env [] (addPhase env (destKeys family proxies) (foreignDefaultRoutes s ourLUID))) := by
    simp [proxyDoIt, htable]
  have hstart : monitorProxyRoutesStart family ourLUID proxies s env reg =
      (some StartErr.regIfaceErr, [],
        (addCallsOf (destKeys family proxies) (foreignDefaultRoutes s ourLUID) ++
          staleCallsOf [] (addPhase env (destKeys family proxies) (foreignDefaultRoutes s ourLUID))).map StartEvent.call ++
        [StartEvent.regRoute, StartEvent.unregRoute] ++
        (cleanItCalls (addPhase env (destKeys family proxies) (foreignDefaultRoutes s ourLUID))).map StartEvent.call) := by
    rw [monitorProxyRoutesStart, hdo]
    simp [cleanIt, h1, h2]
  rw [hstart, hdo]
  refine ⟨rfl, rfl, by simp, ?_⟩
  intro k hk
  have hdel : StartEvent.call (RouteCall.del k.luid k.destination k.nextHop) ∈
      (cleanItCalls (addPhase env (destKeys family proxies)
        (foreignDefaultRoutes s ourLUID))).map StartEvent.call := by
    exact List.mem_map_of_mem _ (List.mem_map_of_mem _ hk)
  simp only [List.mem_append]
  exact Or.inr hdel

/-- Witness for C5 on the one-route, one-address instance: the tracked set
is empty after the rollback. -/
theorem C5_partial_registration_rollback_witness :
    (monitorProxyRoutesStart AF_INET 1 [sampleProxy] cexSnapP envAllOk ⟨true, false⟩).2.1 = [] :=
  (C5_partial_registration_rollback AF_INET 1 [sampleProxy] cexSnapP envAllOk
    ⟨true, false⟩ (by decide) (by decide) (by decide)).2.1

/-- The invariant of C8: every tracked route key points at the host prefix
of one of the resolved proxy destination addresses passing the family
filter of the monitor. -/
def routesInv (family : Nat) (proxies : List ProxyP) (st : List RouteKey) : Prop :=
  ∀ k ∈ st, ∃ p ∈ proxies, ∃ a ∈ p.Addresses, keepAddr family a = true ∧
    k.destination = PrefixFrom a a.BitLen

/-- C8: the tracked installed-route set starts empty (invariant holds
vacuously), every reconciliation pass preserves the invariant that each
tracked destination is a full-bit-length host prefix over a family-matching
resolved proxy address, and teardown leaves the empty set (invariant
again). -/
theorem C8_tracked_destinations_invariant (family ourLUID : Nat)
    (proxies : List ProxyP) (s : Snapshot) (env : RouteEnv) (st : List RouteKey) :
    routesInv family proxies [] ∧
    (routesInv family proxies st →
      routesInv family proxies
        (proxyDoIt family ourLUID (destKeys family proxies) s env st).2.1) ∧
    routesInv family proxies (cleanIt env st).1 := by
  refine ⟨?_, ?_, ?_⟩
  · intro k hk
    cases hk
  · intro hinv k hk
    by_cases htab : s.tableOk = true
    · rw [show (proxyDoIt family ourLUID (destKeys family proxies) s env st).2.1 =
          addPhase env (destKeys family proxies) (foreignDefaultRoutes s ourLUID) by
        simp [proxyDoIt, htab]] at hk
      obtain ⟨r, hr, d, hd, hres, rfl⟩ :=
        (mem_addPhase env (destKeys family proxies) _ k).mp hk
      obtain ⟨p, hp2, a, ha, hka, rfl⟩ := (mem_destKeys family proxies d).mp hd
      exact ⟨p, hp2, a, ha, hka, rfl⟩
    · have hfalse : s.tableOk = false := by simpa using htab
      rw [show (proxyDoIt family ourLUID (destKeys family proxies) s env st).2.1 = st by
        simp [proxyDoIt, hfalse]] at hk
      exact hinv k hk
  · intro k hk
    cases hk

/-- Witness for C8: the invariant carries through a pass from a tracked
set that already satisfies it. -/
theorem C8_tracked_destinations_invariant_witness :
    routesInv AF_INET [sampleProxy]
      (proxyDoIt AF_INET 1 (destKeys AF_INET [sampleProxy]) cexSnapP envAllOk
        [⟨5, PrefixFrom pAddr4 pAddr4.BitLen, gwAddr⟩]).2.1 :=
  (C8_tracked_destinations_invariant AF_INET 1 [sampleProxy] cexSnapP envAllOk
    [⟨5, PrefixFrom pAddr4 pAddr4.BitLen, gwAddr⟩]).2.1
    (by
      intro k hk
      rw [List.mem_singleton] at hk
      subst hk
      exact ⟨sampleProxy, by simp, pAddr4, by simp [sampleProxy], by decide, rfl⟩)

/-- A snapshot whose forwarding-table read fails. -/
def cexSnapFail : Snapshot where
  tableOk := false
  rows := []
  ifaceOf := fun _ => none
  ipifaceOf := fun _ _ => none
  setOk := true

/-- C9: a pass error arising inside a change callback is discarded: the
callback runs to completion yielding only the new state, with no log line
recording the error, while the initial synchronous pass surfaces the error
to the caller of the monitor.  Shown for snapshot-read failures on both
monitors, and for an arbitrary failing MTU pass (which covers MTU-apply
failures). -/
theorem C9_callback_errors_discarded (family ourLUID : Nat) (s : Snapshot)
    (st : MtuState) (dests : List Pfx) (env : RouteEnv) (pst : List RouteKey)
    (e : MtuErr) :
    (s.tableOk = false →
      mtuOnRouteChange family ourLUID true 0 s st = st ∧
      proxyOnRouteChange family ourLUID dests true 0 s env pst = (pst, []) ∧
      (proxyDoIt family ourLUID dests s env pst).1 = some PassErr.tableErr ∧
      mtuMonitorStart family ourLUID s = Except.error MtuErr.tableErr) ∧
    ((mtuDoIt family ourLUID s st).1 = some e →
      mtuOnRouteChange family ourLUID true 0 s st = (mtuDoIt family ourLUID s st).2.1 ∧
      mtuOnIfaceChange family ourLUID MibParameterNotification s st =
        (mtuDoIt family ourLUID s st).2.1) ∧
    ((mtuDoIt family ourLUID s ⟨0, 4294967295, 0⟩).1 = some e →
      mtuMonitorStart family ourLUID s = Except.error e) := by
  refine ⟨?_, ?_, ?_⟩
  · intro htab
    refine ⟨?_, ?_, ?_, ?_⟩
    · simp [mtuOnRouteChange, mtuDoIt, htab]
    · simp [proxyOnRouteChange, proxyDoIt, htab]
    · simp [proxyDoIt, htab]
    · simp [mtuMonitorStart, mtuDoIt, htab]
  · intro _
    constructor
    · simp [mtuOnRouteChange]
    · simp [mtuOnIfaceChange, MibParameterNotification]
  · intro he
    rcases hd : mtuDoIt family ourLUID s ⟨0, 4294967295, 0⟩ with ⟨oe, st2, w⟩
    rw [hd] at he
    cases oe with
    | none => exact absurd he (by simp)
    | some e2 =>
        have he2 : e2 = e := by simpa using he
        subst he2
        simp only [mtuMonitorStart, hd]

/-- Witness for C9 on a snapshot whose table read fails: the MTU
route-change callback leaves the state untouched and reports nothing. -/
theorem C9_callback_errors_discarded_witness :
    mtuOnRouteChange AF_INET 1 true 0 cexSnapFail ⟨0, 4294967295, 0⟩ =
      ⟨0, 4294967295, 0⟩ :=
  ((C9_callback_errors_discarded AF_INET 1 cexSnapFail ⟨0, 4294967295, 0⟩ []
    envAllOk [] MtuErr.tableErr).1 (by decide)).1

/-- C10: whenever the peer loop of the address-list spawnProxies variant
succeeds with n >= 1 distinct resolved addresses, the returned slice has
length 2n and its first n elements are the zero-value (invalid) address,
because the slice is allocated with length n and the resolved addresses
are appended after those zero elements. -/
theorem C10_spawnProxies_leading_zeros (peers : List Peer) (m : List Addr)
    (hgo : spawnGo peers [] = some m) (_hn : 1 ≤ m.length) :
    spawnProxies peers = some (List.replicate m.length Addr.zero ++ m) ∧
    (List.replicate m.length Addr.zero ++ m).length = 2 * m.length ∧
    (List.replicate m.length Addr.zero ++ m).take m.length =
      List.replicate m.length Addr.zero ∧
    ∀ a ∈ List.replicate m.length Addr.zero, a.Is4 = false ∧ a.Is6 = false := by
  refine ⟨?_, ?_, ?_, ?_⟩
  · rw [spawnProxies, hgo]
    rfl
  · simp
    omega
  · have ht := List.take_left (List.replicate m.length Addr.zero) m
    simp only [List.length_replicate] at ht
    exact ht
  · intro a ha
    rw [List.eq_of_mem_replicate ha]
    exact ⟨rfl, rfl⟩

/-- A peer whose proxy endpoint resolves to exactly one address and whose
relay starts cleanly. -/
def samplePeer : Peer := ⟨true, true, true, [some pAddr4], true⟩

/-- Witness for C10: one resolved address yields a slice of length two
whose first element is the invalid zero address. -/
theorem C10_spawnProxies_leading_zeros_witness :
    spawnProxies [samplePeer] = some (List.replicate 1 Addr.zero ++ [pAddr4]) :=
  (C10_spawnProxies_leading_zeros [samplePeer] [pAddr4] (by decide) (by decide)).1
